import Mathlib

/-!
# Verification of the 3D data visualization ingestion pipeline and axis normalizer

Shallow embedding of the upload route of `server/src/routes/upload.js`
(the enhanced variant, `router.post('/')` with validation, lines 266-501)
and of the sign-preserving axis scale `createSignPreservingScale` of the
client visualizer (lines 283-343 of that component).

Modelling conventions:
* A CSV row as delivered by `csv-parser` is an ordered association list of
  string keys to string values (`Row`); the keys of one row object are
  pairwise distinct, but we never rely on that.
* JavaScript values parsed from JSON are modelled by the inductive `JValue`;
  numbers are embedded as rationals.
* The external parsers (`csv-parser`, `JSON.parse`) are oracles: an
  `UploadFile` carries, besides name and byte size, the row list the CSV
  parser would emit for its bytes, the length of its UTF-8 decoded text, and
  the result of `JSON.parse` on that text (`none` when it throws).
* The streaming CSV loop is state passing over the accumulator that the
  `data` handler mutates; the promise rejection on the row limit is the
  `Except` error short-circuit.
* Floating point arithmetic of the axis scale is embedded over `ℚ`.
* Each `throw` site inside the route's `try` block is one constructor of
  `UploadError`; the catch handler maps any of them to the HTTP 500 response
  with the generic top-level error string and the thrown message as details.
-/

/-- A parsed CSV row: the key/value pairs of the row object, in key order. -/
abbrev Row := List (String × String)

/-- JavaScript values obtained from `JSON.parse`. -/
inductive JValue where
  | null
  | bool (b : Bool)
  | num (q : ℚ)
  | str (s : String)
  | arr (elems : List JValue)
  | obj (fields : List (String × JValue))

/-- Truthiness test `row && typeof row === 'object'`: true exactly for
objects and arrays (`null` is excluded by truthiness, primitives by
`typeof`). -/
def jsTruthyObject : JValue → Bool
  | .arr _ => true
  | .obj _ => true
  | _ => false

/-- Keys as `Object.keys` lists them: field names of an object, index
strings of an array. -/
def jsKeys : JValue → List String
  | .obj fields => fields.map (fun kv => kv.1)
  | .arr elems => (List.range elems.length).map (fun i => toString i)
  | _ => []

/-- A CSV row object viewed as a JavaScript value (string-valued fields). -/
def rowToJValue (r : Row) : JValue :=
  .obj (r.map (fun kv => (kv.1, .str kv.2)))

/-- Whitespace for the purposes of `String.prototype.trim`. -/
def isWhitespaceChar (c : Char) : Bool :=
  c = ' ' ∨ c = '\t' ∨ c = '\n' ∨ c = '\r'

/-- Characters after the leading whitespace. -/
def dropLeadingWS : List Char → List Char
  | [] => []
  | c :: cs => if isWhitespaceChar c then dropLeadingWS cs else c :: cs

/-- Semantics of `String.prototype.trim`: strip whitespace at both ends
(structurally recursive so terms evaluate by reduction). -/
def jsTrim (s : String) : String :=
  ⟨(dropLeadingWS (dropLeadingWS s.data.reverse).reverse)⟩

/-- ASCII lowering of one character. -/
def charToLower (c : Char) : Char :=
  if 'A' ≤ c ∧ c ≤ 'Z' then Char.ofNat (c.toNat + 32) else c

/-- Semantics of `String.prototype.toLowerCase` on the ASCII names used
here. -/
def lowerString (s : String) : String :=
  ⟨s.data.map charToLower⟩

/-- Insertion into a JavaScript `Set` viewed through its insertion order:
append the key iff it is not present yet. -/
def setAdd (s : List String) (k : String) : List String :=
  if k ∈ s then s else s ++ [k]

/-- Assignment `o[k] = v` on a JavaScript object: overwrite in place when the
key exists (keeping its position), otherwise append. -/
def objSet (o : Row) (k v : String) : Row :=
  if o.any (fun kv => kv.1 = k) then
    o.map (fun kv => if kv.1 = k then (k, v) else kv)
  else o ++ [(k, v)]

/-- The `cleanRow` built per CSV row: every key trimmed, values kept. -/
def cleanRow (row : Row) : Row :=
  row.foldl (fun acc kv => objSet acc (jsTrim kv.1) kv.2) []

/-- All (trimmed) keys observed across the parsed rows, in observation
order, duplicates included. -/
def observedKeys (rows : List Row) : List String :=
  rows.flatMap (fun r => r.map (fun kv => jsTrim kv.1))

/-- First-seen deduplication: the contents of a JavaScript `Set` after
inserting the given keys in order, read back in insertion order. -/
def firstSeenDedup (keys : List String) : List String :=
  keys.foldl setAdd []

/-- The distinct failure modes of the upload route, one constructor per
`throw`/reject site inside its `try` block. -/
inductive UploadError where
  | rowLimitExceeded
  | jsonTextTooLarge
  | invalidJson
  | jsonTooManyRecords
  | noValidObjects
  | emptyDataset
  | noColumns
deriving DecidableEq

/-- The `message` of the `Error` thrown at each site, verbatim. -/
def UploadError.message : UploadError → String
  | .rowLimitExceeded => "File too large. Maximum 100,000 rows allowed."
  | .jsonTextTooLarge => "JSON file too large to process"
  | .invalidJson => "Invalid JSON format. Please check your file syntax."
  | .jsonTooManyRecords =>
      "JSON file contains too many records. Maximum 100,000 records allowed."
  | .noValidObjects => "No valid data objects found in JSON file"
  | .emptyDataset => "No data found in file or file is empty"
  | .noColumns => "No columns detected in file"

/-- The 100k row limit of both parse paths. -/
def ROW_LIMIT : Nat := 100000

/-- The 50 MiB byte-size limit checked before parsing. -/
def MAX_SIZE : Nat := 50 * 1024 * 1024

/-- The 10 MiB limit on the decoded JSON text (`raw.length`). -/
def JSON_TEXT_LIMIT : Nat := 10 * 1024 * 1024

/-- The mutable state of the CSV streaming parse. -/
structure CsvAcc where
  columnsSet : List String
  rowCount : Nat
  previewRows : List Row
  allRows : List Row

/-- One execution of the `data` handler: count the row, fold its trimmed
keys into the column set, build `cleanRow`, push it to `allRows` and (below
five) to `previewRows`, then reject when the count exceeds the limit.
(The handler interleaves the set insertion with the `cleanRow` assignments
in one `forEach`; the two folds never interact, so they are separated.) -/
def csvProcessRow (acc : CsvAcc) (row : Row) : Except UploadError CsvAcc :=
  let rowCount := acc.rowCount + 1
  let cr := cleanRow row
  let acc' : CsvAcc :=
    { columnsSet := (row.map (fun kv => jsTrim kv.1)).foldl setAdd acc.columnsSet
      rowCount := rowCount
      previewRows :=
        if acc.previewRows.length < 5 then acc.previewRows ++ [cr]
        else acc.previewRows
      allRows := acc.allRows ++ [cr] }
  if rowCount > ROW_LIMIT then .error .rowLimitExceeded else .ok acc'

/-- The stream's `data` events in order; a rejection stops the parse and
discards the partial state. -/
def runCSVRows : CsvAcc → List Row → Except UploadError CsvAcc
  | acc, [] => .ok acc
  | acc, row :: rest =>
    match csvProcessRow acc row with
    | .error e => .error e
    | .ok acc' => runCSVRows acc' rest

/-- Function `parseCSV` of the upload route on the rows the csv parser
emits. -/
def parseCSVUpload (rows : List Row) : Except UploadError CsvAcc :=
  runCSVRows { columnsSet := [], rowCount := 0, previewRows := [], allRows := [] } rows

/-- Outcome of the JSON branch before the shared post-parse checks. -/
structure JsonParsed where
  columns : List String
  rows : List JValue

/-- Record extraction `Array.isArray(jsonData) ? jsonData : [jsonData]`. -/
def toRecords : JValue → List JValue
  | .arr xs => xs
  | v => [v]

/-- The JSON branch of the route: text-size gate, parse gate, wrap, record
limit, and column extraction from the first non-null object-typed element. -/
def parseJSONUpload (textLen : Nat) (parsed : Option JValue) :
    Except UploadError JsonParsed :=
  if textLen > JSON_TEXT_LIMIT then .error .jsonTextTooLarge
  else
    match parsed with
    | none => .error .invalidJson
    | some jsonData =>
      let rows := toRecords jsonData
      if rows.length > ROW_LIMIT then .error .jsonTooManyRecords
      else
        match rows.find? jsTruthyObject with
        | none => .error .noValidObjects
        | some first => .ok { columns := jsKeys first, rows := rows }

/-- The uploaded file as the route sees it, with the external parsers'
results on its byte content supplied as oracles. -/
structure UploadFile where
  originalname : String
  size : Nat
  csvParse : List Row
  jsonTextLen : Nat
  jsonParse : Option JValue

/-- Characters after the last slash (the basename of the path). -/
def afterLastSlash (cs : List Char) : List Char :=
  cs.foldl (fun acc c => if c = '/' then [] else acc ++ [c]) []

/-- The suffix starting at the last dot, when any dot is present. -/
def lastDotSplit : List Char → Option (List Char)
  | [] => none
  | c :: rest =>
    match lastDotSplit rest with
    | some suf => some suf
    | none => if c = '.' then some (c :: rest) else none

/-- Semantics of Node's `path.extname`: from the last dot of the basename,
empty for a dotless name or a name whose only dot leads it. -/
def extname (s : String) : String :=
  match afterLastSlash s.data with
  | [] => ""
  | _ :: rest =>
    match lastDotSplit rest with
    | some suf => ⟨suf⟩
    | none => ""

/-- What the route computes before dispatching a format branch. -/
structure ParseOutcome where
  columns : List String
  rows : Nat
  preview : List JValue
  parsedData : List JValue

/-- Format dispatch (`ext` is pre-validated to `.csv` or `.json`): assemble
`metadata.columns/rows/preview` and `parsedData` from the branch taken. -/
def dispatchParse (ext : String) (f : UploadFile) :
    Except UploadError ParseOutcome :=
  if ext = ".csv" then
    (parseCSVUpload f.csvParse).map (fun acc =>
      { columns := acc.columnsSet
        rows := acc.rowCount
        preview := acc.previewRows.map rowToJValue
        parsedData := acc.allRows.map rowToJValue })
  else
    (parseJSONUpload f.jsonTextLen f.jsonParse).map (fun jp =>
      { columns := jp.columns
        rows := jp.rows.length
        preview := jp.rows.take 5
        parsedData := jp.rows })

/-- Parse plus the shared post-parse checks: empty data, then empty columns. -/
def processUpload (ext : String) (f : UploadFile) :
    Except UploadError ParseOutcome :=
  match dispatchParse ext f with
  | .error e => .error e
  | .ok po =>
    if po.parsedData.length = 0 then .error .emptyDataset
    else if po.columns.length = 0 then .error .noColumns
    else .ok po

/-- The success response body (`message`/timestamp presentation fields are
omitted; they carry no data). -/
structure SuccessBody where
  headers : List String
  data : List JValue
  rowCount : Nat
  columnCount : Nat
  fileSize : Nat
  fileName : String

/-- The `metadata` object stringified into the datasets table on success. -/
structure SavedMetadata where
  columns : List String
  rows : Nat
  preview : List JValue

/-- The observable outcome of one POST: either the success JSON (plus the
metadata that the route attempts to persist, and whether the database
failure warning was logged), or an error status with `error` and `details`. -/
inductive RouteResult where
  | ok (body : SuccessBody) (saved : SavedMetadata) (dbWarning : Bool)
  | err (status : Nat) (error : String) (details : String)

/-- The top-level `error` field of the catch-all 500 response. -/
def genericErrorField : String := "File processing failed"

/-- The enhanced upload route `router.post('/')`: extension gate, byte-size
gate, format dispatch with post-parse checks, database save whose failure
(`dbOk = false`) is caught and only logged, then the success response. -/
def uploadPost (f : UploadFile) (dbOk : Bool) : RouteResult :=
  let ext := lowerString (extname f.originalname)
  if ext = ".csv" ∨ ext = ".json" then
    if f.size > MAX_SIZE then
      .err 400 "File too large" "File size must be less than 50MB"
    else
      match processUpload ext f with
      | .error e => .err 500 genericErrorField e.message
      | .ok po =>
        .ok { headers := po.columns
              data := po.parsedData
              rowCount := po.rows
              columnCount := po.columns.length
              fileSize := f.size
              fileName := f.originalname }
           { columns := po.columns, rows := po.rows, preview := po.preview }
           (!dbOk)
  else
    .err 400 "Unsupported file format" "Only CSV and JSON files are supported"

/-- Which branch of `createSignPreservingScale` produced a scale. -/
inductive ScaleBranch where
  | degenerate
  | spansZero
  | allNonNegative
  | allNonPositive
deriving DecidableEq

/-- A d3 linear scale as configured by the normalizer: domain endpoints,
range endpoints, and the branch that chose them. -/
structure AxisScale where
  domainMin : ℚ
  domainMax : ℚ
  rangeMin : ℚ
  rangeMax : ℚ
  branch : ScaleBranch

/-- Evaluation of a (non-clamping) d3 linear scale. -/
def scaleApply (s : AxisScale) (v : ℚ) : ℚ :=
  s.rangeMin + (v - s.domainMin) / (s.domainMax - s.domainMin) * (s.rangeMax - s.rangeMin)

/-- Spread minimum `Math.min(...values)` over a nonempty argument list. -/
def listMin (v : ℚ) (vs : List ℚ) : ℚ := vs.foldl min v

/-- Spread maximum `Math.max(...values)` over a nonempty argument list. -/
def listMax (v : ℚ) (vs : List ℚ) : ℚ := vs.foldl max v

/-- Function `createSignPreservingScale` of the visualizer, verbatim over
`ℚ` (the float literals 1.1 and 0.1 become 11/10 and 1/10). -/
def createSignPreservingScale (values : List ℚ) (targetRange : ℚ) : AxisScale :=
  match values with
  | [] =>
    { domainMin := 0, domainMax := 1
      rangeMin := -targetRange, rangeMax := targetRange
      branch := .degenerate }
  | v :: vs =>
    let mn := listMin v vs
    let mx := listMax v vs
    if mn = mx then
      let center := if mn = 0 then 0 else mn
      { domainMin := center - 1, domainMax := center + 1
        rangeMin := -targetRange, rangeMax := targetRange
        branch := .degenerate }
    else if mn < 0 ∧ 0 < mx then
      let negativeWithPadding := |mn| * (11 / 10)
      let positiveWithPadding := mx * (11 / 10)
      let totalWithPadding := negativeWithPadding + positiveWithPadding
      let negativeTargetRange := negativeWithPadding / totalWithPadding * (targetRange * 2)
      let positiveTargetRange := positiveWithPadding / totalWithPadding * (targetRange * 2)
      { domainMin := -negativeWithPadding, domainMax := positiveWithPadding
        rangeMin := -negativeTargetRange, rangeMax := positiveTargetRange
        branch := .spansZero }
    else if 0 ≤ mn then
      let padding := (mx - mn) * (1 / 10)
      { domainMin := max 0 (mn - padding), domainMax := mx + padding
        rangeMin := 0, rangeMax := targetRange
        branch := .allNonNegative }
    else
      let padding := (mx - mn) * (1 / 10)
      { domainMin := mn - padding, domainMax := min 0 (mx + padding)
        rangeMin := -targetRange, rangeMax := 0
        branch := .allNonPositive }

/-- An upload of an empty `.csv` file: no bytes, no rows emitted. -/
def emptyCsvFile : UploadFile :=
  { originalname := "empty.csv", size := 0, csvParse := []
    jsonTextLen := 0, jsonParse := none }

/-- An upload of a small `.csv` file whose parser emits 100001 rows. -/
def hugeCsvFile : UploadFile :=
  { originalname := "huge.csv", size := 700007
    csvParse := List.replicate (ROW_LIMIT + 1) [("a", "1")]
    jsonTextLen := 0, jsonParse := none }

/-- An upload of the CSV `a,b\n1,2\n3,4`. -/
def smallCsvFile : UploadFile :=
  { originalname := "small.csv", size := 12
    csvParse := [[("a", "1"), ("b", "2")], [("a", "3"), ("b", "4")]]
    jsonTextLen := 0, jsonParse := none }

/-- An upload of the JSON text `[]`. -/
def emptyJsonArrayFile : UploadFile :=
  { originalname := "empty.json", size := 2, csvParse := []
    jsonTextLen := 2, jsonParse := some (.arr []) }

/-- An upload of a `.txt` file. -/
def textFile : UploadFile :=
  { originalname := "notes.txt", size := 9, csvParse := []
    jsonTextLen := 9, jsonParse := none }

/-- A 20 MiB `.json` upload whose decoded text has 10 MiB + 1 characters
(multi-byte characters decode to fewer UTF-16 units than bytes). -/
def bigTextJsonFile : UploadFile :=
  { originalname := "big.json", size := 20 * 1024 * 1024, csvParse := []
    jsonTextLen := 10 * 1024 * 1024 + 1
    jsonParse := some (.arr [.obj [("a", .num 1)]]) }

/-- The records `smallCsvFile` parses to, as JavaScript values. -/
def smallCsvRecords : List JValue :=
  [JValue.obj [("a", JValue.str "1"), ("b", JValue.str "2")],
   JValue.obj [("a", JValue.str "3"), ("b", JValue.str "4")]]

/-- The success body the route produces for `smallCsvFile`. -/
def smallCsvBody : SuccessBody :=
  { headers := ["a", "b"], data := smallCsvRecords, rowCount := 2
    columnCount := 2, fileSize := 12, fileName := "small.csv" }

/-- The metadata the route persists for `smallCsvFile`. -/
def smallCsvSaved : SavedMetadata :=
  { columns := ["a", "b"], rows := 2, preview := smallCsvRecords }

/-! ## Properties of the column set fold -/

lemma mem_setAdd {s : List String} {k x : String} :
    x ∈ setAdd s k ↔ x ∈ s ∨ x = k := by
  unfold setAdd
  split
  · rename_i hk
    constructor
    · exact fun hx => Or.inl hx
    · rintro (hx | rfl)
      · exact hx
      · exact hk
  · simp

lemma nodup_setAdd {s : List String} (h : s.Nodup) (k : String) :
    (setAdd s k).Nodup := by
  unfold setAdd
  split
  · exact h
  · rename_i hk
    simp [List.nodup_append, h, hk]

lemma mem_foldl_setAdd (ks : List String) (s : List String) (x : String) :
    x ∈ ks.foldl setAdd s ↔ x ∈ s ∨ x ∈ ks := by
  induction ks generalizing s with
  | nil => simp
  | cons k ks ih =>
    rw [List.foldl_cons, ih, mem_setAdd]
    simp [or_assoc]

lemma nodup_foldl_setAdd (ks : List String) (s : List String) (h : s.Nodup) :
    (ks.foldl setAdd s).Nodup := by
  induction ks generalizing s with
  | nil => exact h
  | cons k ks ih => exact ih _ (nodup_setAdd h k)

lemma firstSeenDedup_nodup (ks : List String) : (firstSeenDedup ks).Nodup :=
  nodup_foldl_setAdd ks [] List.nodup_nil

lemma mem_firstSeenDedup (ks : List String) (x : String) :
    x ∈ firstSeenDedup ks ↔ x ∈ ks := by
  rw [firstSeenDedup, mem_foldl_setAdd]
  simp

/-! ## Closed form of the streaming CSV parse -/

lemma runCSVRows_ok (rows : List Row) (acc : CsvAcc)
    (h : acc.rowCount + rows.length ≤ ROW_LIMIT) :
    runCSVRows acc rows = .ok
      { columnsSet := (observedKeys rows).foldl setAdd acc.columnsSet
        rowCount := acc.rowCount + rows.length
        previewRows :=
          acc.previewRows ++ (rows.map cleanRow).take (5 - acc.previewRows.length)
        allRows := acc.allRows ++ rows.map cleanRow } := by
  induction rows generalizing acc with
  | nil => simp [runCSVRows, observedKeys]
  | cons row rest ih =>
    have hlt : ¬ (acc.rowCount + 1 > ROW_LIMIT) := by
      simp only [List.length_cons] at h
      omega
    rw [runCSVRows, csvProcessRow]
    simp only [if_neg hlt]
    rw [ih _ (by simp only [List.length_cons] at h ⊢; omega)]
    refine congrArg Except.ok ?_
    simp only [CsvAcc.mk.injEq]
    refine ⟨?_, ?_, ?_, ?_⟩
    · simp only [observedKeys, List.flatMap_cons, List.foldl_append]
    · simp only [List.length_cons]
      omega
    · by_cases hp : acc.previewRows.length < 5
      · simp only [if_pos hp, List.length_append, List.length_singleton,
          List.map_cons]
        rw [show 5 - acc.previewRows.length = (5 - (acc.previewRows.length + 1)) + 1 from by omega,
          List.take_succ_cons, List.append_assoc]
        rfl
      · simp only [if_neg hp]
        rw [show 5 - acc.previewRows.length = 0 from by omega]
        simp
    · rw [List.map_cons, List.append_assoc]
      rfl

lemma runCSVRows_err (rows : List Row) (acc : CsvAcc)
    (h1 : acc.rowCount ≤ ROW_LIMIT)
    (h2 : ROW_LIMIT < acc.rowCount + rows.length) :
    runCSVRows acc rows = .error .rowLimitExceeded := by
  induction rows generalizing acc with
  | nil => simp only [List.length_nil] at h2; omega
  | cons row rest ih =>
    rw [runCSVRows, csvProcessRow]
    by_cases hc : acc.rowCount + 1 > ROW_LIMIT
    · simp only [if_pos hc]
    · simp only [if_neg hc]
      exact ih _ (by simpa using hc) (by simp only [List.length_cons] at h2; simp; omega)

lemma parseCSVUpload_ok (rows : List Row) (h : rows.length ≤ ROW_LIMIT) :
    parseCSVUpload rows = .ok
      { columnsSet := firstSeenDedup (observedKeys rows)
        rowCount := rows.length
        previewRows := (rows.map cleanRow).take 5
        allRows := rows.map cleanRow } := by
  rw [parseCSVUpload, runCSVRows_ok rows _ (by simpa using h)]
  simp [firstSeenDedup]

lemma parseCSVUpload_err (rows : List Row) (h : ROW_LIMIT < rows.length) :
    parseCSVUpload rows = .error .rowLimitExceeded :=
  runCSVRows_err rows _ (by simp) (by simpa using h)

/-! ## Inversion of the route and of the format branches -/

lemma dispatchParse_csv_ok_inv {f : UploadFile} {po : ParseOutcome}
    (h : dispatchParse ".csv" f = .ok po) :
    f.csvParse.length ≤ ROW_LIMIT ∧
    po = { columns := firstSeenDedup (observedKeys f.csvParse)
           rows := f.csvParse.length
           preview := ((f.csvParse.map cleanRow).take 5).map rowToJValue
           parsedData := (f.csvParse.map cleanRow).map rowToJValue } := by
  by_cases hlen : f.csvParse.length ≤ ROW_LIMIT
  · refine ⟨hlen, ?_⟩
    rw [dispatchParse, if_pos rfl, parseCSVUpload_ok _ hlen] at h
    simp only [Except.map, Except.ok.injEq] at h
    exact h.symm
  · exfalso
    rw [dispatchParse, if_pos rfl, parseCSVUpload_err _ (by omega)] at h
    simp [Except.map] at h

lemma dispatchParse_json_ok_inv {f : UploadFile} {po : ParseOutcome}
    (h : dispatchParse ".json" f = .ok po) :
    ∃ jp, parseJSONUpload f.jsonTextLen f.jsonParse = .ok jp ∧
      po = { columns := jp.columns, rows := jp.rows.length
             preview := jp.rows.take 5, parsedData := jp.rows } := by
  rw [dispatchParse, if_neg (by decide)] at h
  cases hj : parseJSONUpload f.jsonTextLen f.jsonParse with
  | error e => rw [hj] at h; simp [Except.map] at h
  | ok jp =>
    rw [hj] at h
    simp only [Except.map, Except.ok.injEq] at h
    exact ⟨jp, rfl, h.symm⟩

lemma processUpload_ok_inv {ext : String} {f : UploadFile} {po : ParseOutcome}
    (h : processUpload ext f = .ok po) :
    dispatchParse ext f = .ok po ∧
    po.parsedData.length ≠ 0 ∧ po.columns.length ≠ 0 := by
  rw [processUpload] at h
  split at h
  · exact Except.noConfusion h
  · rename_i po' hd
    by_cases h1 : po'.parsedData.length = 0
    · rw [if_pos h1] at h; exact Except.noConfusion h
    · rw [if_neg h1] at h
      by_cases h2 : po'.columns.length = 0
      · rw [if_pos h2] at h; exact Except.noConfusion h
      · rw [if_neg h2] at h
        cases h
        exact ⟨hd, h1, h2⟩

lemma uploadPost_ok_inv {f : UploadFile} {dbOk : Bool} {body : SuccessBody}
    {saved : SavedMetadata} {w : Bool}
    (h : uploadPost f dbOk = .ok body saved w) :
    ((lowerString (extname f.originalname)) = ".csv" ∨
       (lowerString (extname f.originalname)) = ".json") ∧
    f.size ≤ MAX_SIZE ∧
    ∃ po, processUpload ((lowerString (extname f.originalname))) f = .ok po ∧
      body = { headers := po.columns, data := po.parsedData, rowCount := po.rows
               columnCount := po.columns.length, fileSize := f.size
               fileName := f.originalname } ∧
      saved = { columns := po.columns, rows := po.rows, preview := po.preview } ∧
      w = !dbOk := by
  simp only [uploadPost] at h
  split at h
  · rename_i hext
    split at h
    · exact RouteResult.noConfusion h
    · rename_i hsize
      refine ⟨hext, by omega, ?_⟩
      cases hp : processUpload ((lowerString (extname f.originalname))) f with
      | error e => rw [hp] at h; exact RouteResult.noConfusion h
      | ok po =>
        rw [hp] at h
        injection h with h1 h2 h3
        exact ⟨po, rfl, h1.symm, h2.symm, h3.symm⟩
  · exact RouteResult.noConfusion h

lemma uploadPost_err_of_process {f : UploadFile} {dbOk : Bool} {e : UploadError}
    (hext : (lowerString (extname f.originalname)) = ".csv" ∨
      (lowerString (extname f.originalname)) = ".json")
    (hsize : ¬ f.size > MAX_SIZE)
    (hproc : processUpload ((lowerString (extname f.originalname))) f = .error e) :
    uploadPost f dbOk = .err 500 genericErrorField e.message := by
  simp only [uploadPost, if_pos hext, if_neg hsize, hproc]

lemma processUpload_csv_rowlimit {f : UploadFile}
    (h : ROW_LIMIT < f.csvParse.length) :
    processUpload ".csv" f = .error .rowLimitExceeded := by
  rw [processUpload, dispatchParse, if_pos rfl, parseCSVUpload_err _ h]
  rfl

lemma processUpload_csv_empty {f : UploadFile} (h : f.csvParse = []) :
    processUpload ".csv" f = .error .emptyDataset := by
  rw [processUpload, dispatchParse, if_pos rfl, h]
  rfl

lemma processUpload_json_textlimit {f : UploadFile}
    (h : JSON_TEXT_LIMIT < f.jsonTextLen) :
    processUpload ".json" f = .error .jsonTextTooLarge := by
  rw [processUpload, dispatchParse, if_neg (by decide),
    parseJSONUpload.eq_def, if_pos h]
  rfl

/-! ## Characterization of the JSON branch -/

lemma parseJSONUpload_ok_inv {tl : Nat} {p : Option JValue} {jp : JsonParsed}
    (h : parseJSONUpload tl p = .ok jp) :
    tl ≤ JSON_TEXT_LIMIT ∧
    ∃ v, p = some v ∧ jp.rows = toRecords v ∧
      jp.rows.length ≤ ROW_LIMIT ∧
      ∃ first, jp.rows.find? jsTruthyObject = some first ∧
        jp.columns = jsKeys first := by
  rw [parseJSONUpload.eq_def] at h
  split at h
  · exact Except.noConfusion h
  · rename_i htl
    refine ⟨by omega, ?_⟩
    cases p with
    | none => exact Except.noConfusion h
    | some v =>
      refine ⟨v, rfl, ?_⟩
      simp only at h
      split at h
      · exact Except.noConfusion h
      · rename_i hlen
        split at h
        · exact Except.noConfusion h
        · rename_i first hfind
          cases h
          exact ⟨rfl, by dsimp only; omega, first, hfind, rfl⟩

/-! ## Properties of the axis scale -/

lemma listMin_le (v : ℚ) (vs : List ℚ) : listMin v vs ≤ v := by
  induction vs generalizing v with
  | nil => exact le_refl v
  | cons x vs ih =>
    calc listMin v (x :: vs) = listMin (min v x) vs := rfl
    _ ≤ min v x := ih (min v x)
    _ ≤ v := min_le_left v x

lemma le_listMax (v : ℚ) (vs : List ℚ) : v ≤ listMax v vs := by
  induction vs generalizing v with
  | nil => exact le_refl v
  | cons x vs ih =>
    calc v ≤ max v x := le_max_left v x
    _ ≤ listMax (max v x) vs := ih (max v x)
    _ = listMax v (x :: vs) := rfl

lemma listMin_le_listMax (v : ℚ) (vs : List ℚ) : listMin v vs ≤ listMax v vs :=
  le_trans (listMin_le v vs) (le_listMax v vs)

lemma scaleApply_domainMin (s : AxisScale) :
    scaleApply s s.domainMin = s.rangeMin := by
  unfold scaleApply
  rw [sub_self, zero_div, zero_mul, add_zero]

lemma scaleApply_domainMax (s : AxisScale) (h : s.domainMax ≠ s.domainMin) :
    scaleApply s s.domainMax = s.rangeMax := by
  unfold scaleApply
  rw [div_self (sub_ne_zero.mpr h), one_mul]
  ring

/-- C4: for every numeric sample set whose minimum is negative and whose
maximum is positive (the spansZero branch of `createSignPreservingScale`),
the produced scale maps the data value 0 exactly to the render value 0. -/
theorem spans_zero_maps_zero_to_zero (v : ℚ) (vs : List ℚ) (R : ℚ)
    (hmin : listMin v vs < 0) (hmax : 0 < listMax v vs) :
    scaleApply (createSignPreservingScale (v :: vs) R) 0 = 0 := by
  have hne : listMin v vs ≠ listMax v vs := ne_of_lt (lt_trans hmin hmax)
  have ha : (0 : ℚ) < |listMin v vs| * (11 / 10) := by
    have h1 : (0 : ℚ) < |listMin v vs| := abs_pos.mpr (ne_of_lt hmin)
    nlinarith
  have hb : (0 : ℚ) < listMax v vs * (11 / 10) := by nlinarith
  simp only [createSignPreservingScale]
  rw [if_neg hne, if_pos ⟨hmin, hmax⟩]
  unfold scaleApply
  dsimp only
  set A := |listMin v vs| * (11 / 10) with hA
  set B := listMax v vs * (11 / 10) with hB
  have ht : A + B ≠ 0 := ne_of_gt (add_pos ha hb)
  have ht2 : B - -A ≠ 0 := by
    rw [sub_neg_eq_add]
    exact ne_of_gt (add_pos hb ha)
  field_simp
  ring

/-- Witness for C4 at the samples `[-2, 3]` with half range 10. -/
theorem spans_zero_maps_zero_to_zero_witness :
    listMin (-2) [3] < 0 ∧ 0 < listMax (-2) [3] ∧
    scaleApply (createSignPreservingScale [-2, 3] 10) 0 = 0 := by
  refine ⟨by norm_num [listMin], by norm_num [listMax], ?_⟩
  exact spans_zero_maps_zero_to_zero (-2) [3] 10 (by norm_num [listMin])
    (by norm_num [listMax])

/-- C5: in every non-degenerate branch of `createSignPreservingScale`
(spansZero, allNonNegative, allNonPositive) the produced linear mapping
sends `domainMin` exactly to `rangeMin` and `domainMax` exactly to
`rangeMax`. -/
theorem nondegenerate_endpoints_exact (values : List ℚ) (R : ℚ)
    (h : (createSignPreservingScale values R).branch ≠ ScaleBranch.degenerate) :
    scaleApply (createSignPreservingScale values R)
        (createSignPreservingScale values R).domainMin =
      (createSignPreservingScale values R).rangeMin ∧
    scaleApply (createSignPreservingScale values R)
        (createSignPreservingScale values R).domainMax =
      (createSignPreservingScale values R).rangeMax := by
  refine ⟨scaleApply_domainMin _, scaleApply_domainMax _ ?_⟩
  cases values with
  | nil => exact absurd rfl h
  | cons v vs =>
    by_cases heq : listMin v vs = listMax v vs
    · exact absurd (by simp only [createSignPreservingScale, if_pos heq]) h
    · by_cases hspan : listMin v vs < 0 ∧ 0 < listMax v vs
      · have ha : (0 : ℚ) < |listMin v vs| * (11 / 10) := by
          have h1 : (0 : ℚ) < |listMin v vs| := abs_pos.mpr (ne_of_lt hspan.1)
          nlinarith
        have hb : (0 : ℚ) < listMax v vs * (11 / 10) := by nlinarith [hspan.2]
        simp only [createSignPreservingScale, if_neg heq, if_pos hspan]
        exact ne_of_gt (by linarith)
      · have hlt : listMin v vs < listMax v vs :=
          lt_of_le_of_ne (listMin_le_listMax v vs) heq
        have hp : (0 : ℚ) < (listMax v vs - listMin v vs) * (1 / 10) := by
          nlinarith
        by_cases hnn : 0 ≤ listMin v vs
        · simp only [createSignPreservingScale, if_neg heq, if_neg hspan,
            if_pos hnn]
          have h1 : max 0 (listMin v vs - (listMax v vs - listMin v vs) * (1 / 10)) ≤
              listMin v vs := max_le hnn (by linarith)
          exact ne_of_gt (lt_of_le_of_lt h1 (by linarith))
        · have hmn : listMin v vs < 0 := not_le.mp hnn
          have hmx : listMax v vs ≤ 0 := by
            by_contra hmx
            push_neg at hmx
            exact hspan ⟨hmn, hmx⟩
          simp only [createSignPreservingScale, if_neg heq, if_neg hspan,
            if_neg hnn]
          have h1 : listMax v vs ≤
              min 0 (listMax v vs + (listMax v vs - listMin v vs) * (1 / 10)) :=
            le_min hmx (by linarith)
          exact ne_of_gt (lt_of_lt_of_le (by linarith) h1)

/-- Witness for C5 at the samples `[1, 2, 3]` with half range 10
(the allNonNegative branch). -/
theorem nondegenerate_endpoints_exact_witness :
    (createSignPreservingScale [1, 2, 3] 10).branch ≠ ScaleBranch.degenerate ∧
    scaleApply (createSignPreservingScale [1, 2, 3] 10)
        (createSignPreservingScale [1, 2, 3] 10).domainMin =
      (createSignPreservingScale [1, 2, 3] 10).rangeMin ∧
    scaleApply (createSignPreservingScale [1, 2, 3] 10)
        (createSignPreservingScale [1, 2, 3] 10).domainMax =
      (createSignPreservingScale [1, 2, 3] 10).rangeMax := by
  have hbr : (createSignPreservingScale [1, 2, 3] 10).branch ≠
      ScaleBranch.degenerate := by decide
  exact ⟨hbr, (nondegenerate_endpoints_exact [1, 2, 3] 10 hbr).1,
    (nondegenerate_endpoints_exact [1, 2, 3] 10 hbr).2⟩

/-- C1: for every successfully ingested CSV upload, the returned `columns`
(the `headers` of the response) equal the union of the keys observed across
all parsed rows, in first-seen discovery order, with no duplicates. -/
theorem csv_columns_first_seen_union (f : UploadFile) (dbOk : Bool)
    (body : SuccessBody) (saved : SavedMetadata) (w : Bool)
    (hcsv : (lowerString (extname f.originalname)) = ".csv")
    (h : uploadPost f dbOk = .ok body saved w) :
    body.headers = firstSeenDedup (observedKeys f.csvParse) ∧
    body.headers.Nodup ∧
    ∀ k, (k ∈ body.headers ↔ k ∈ observedKeys f.csvParse) := by
  obtain ⟨hext, hsize, po, hp, hbody, hsaved, hw⟩ := uploadPost_ok_inv h
  obtain ⟨hd, -, -⟩ := processUpload_ok_inv hp
  rw [hcsv] at hd
  obtain ⟨hlen, hpo⟩ := dispatchParse_csv_ok_inv hd
  subst hbody hpo
  dsimp only
  exact ⟨rfl, firstSeenDedup_nodup _, fun k => mem_firstSeenDedup _ k⟩

/-- Witness for C1 at the two-row CSV upload `smallCsvFile`. -/
theorem csv_columns_first_seen_union_witness :
    smallCsvBody.headers = firstSeenDedup (observedKeys smallCsvFile.csvParse) ∧
    smallCsvBody.headers.Nodup := by
  have h := csv_columns_first_seen_union smallCsvFile true smallCsvBody
    smallCsvSaved false (by rfl) (by rfl)
  exact ⟨h.1, h.2.1⟩

/-- C2: for every Dataset produced by a successful ingestion (CSV or JSON),
the row count equals the number of parsed records and the preview is the
prefix of the records of length min(5, rowCount). -/
theorem dataset_rowcount_preview_invariant (f : UploadFile) (dbOk : Bool)
    (body : SuccessBody) (saved : SavedMetadata) (w : Bool)
    (h : uploadPost f dbOk = .ok body saved w) :
    saved.rows = body.data.length ∧ body.rowCount = body.data.length ∧
    saved.preview = body.data.take 5 ∧
    saved.preview.length = min 5 saved.rows := by
  obtain ⟨hext, hsize, po, hp, hbody, hsaved, hw⟩ := uploadPost_ok_inv h
  obtain ⟨hd, -, -⟩ := processUpload_ok_inv hp
  subst hbody hsaved
  dsimp only
  cases hext with
  | inl hcsv =>
    rw [hcsv] at hd
    obtain ⟨hlen, hpo⟩ := dispatchParse_csv_ok_inv hd
    subst hpo
    dsimp only
    refine ⟨by simp, by simp, ?_, ?_⟩
    · simp [List.map_take]
    · simp
  | inr hjson =>
    rw [hjson] at hd
    obtain ⟨jp, hj, hpo⟩ := dispatchParse_json_ok_inv hd
    subst hpo
    dsimp only
    exact ⟨rfl, rfl, rfl, by simp⟩

/-- Witness for C2 at the two-row CSV upload `smallCsvFile`. -/
theorem dataset_rowcount_preview_invariant_witness :
    smallCsvSaved.rows = smallCsvBody.data.length ∧
    smallCsvSaved.preview = smallCsvBody.data.take 5 := by
  have h := dataset_rowcount_preview_invariant smallCsvFile true smallCsvBody
    smallCsvSaved false (by rfl)
  exact ⟨h.1, h.2.2.1⟩

/-- C3: a CSV upload with more than 100000 data rows aborts the whole parse
with the row-limit error; the route returns the error response (no Dataset),
and the partial accumulator is discarded by the rejection. -/
theorem csv_row_limit_aborts (f : UploadFile) (dbOk : Bool)
    (hcsv : (lowerString (extname f.originalname)) = ".csv")
    (hsize : f.size ≤ MAX_SIZE)
    (hrows : ROW_LIMIT < f.csvParse.length) :
    parseCSVUpload f.csvParse = .error .rowLimitExceeded ∧
    uploadPost f dbOk = .err 500 genericErrorField
      UploadError.rowLimitExceeded.message := by
  refine ⟨parseCSVUpload_err _ hrows, ?_⟩
  refine uploadPost_err_of_process (Or.inl hcsv) (by omega) ?_
  rw [hcsv]
  exact processUpload_csv_rowlimit hrows

/-- Witness for C3 at a 100001-row CSV upload. -/
theorem csv_row_limit_aborts_witness :
    ROW_LIMIT < hugeCsvFile.csvParse.length ∧
    uploadPost hugeCsvFile true = .err 500 genericErrorField
      "File too large. Maximum 100,000 rows allowed." := by
  have hrows : ROW_LIMIT < hugeCsvFile.csvParse.length := by
    simp [hugeCsvFile]
  exact ⟨hrows, (csv_row_limit_aborts hugeCsvFile true (by rfl)
    (by norm_num [hugeCsvFile, MAX_SIZE]) hrows).2⟩

lemma toRecords_non_array {v : JValue} (hv : ∀ xs, v ≠ JValue.arr xs) :
    toRecords v = [v] := by
  cases v with
  | arr xs => exact absurd rfl (hv xs)
  | null => rfl
  | bool b => rfl
  | num q => rfl
  | str s => rfl
  | obj fields => rfl

/-- C6: a JSON upload whose top-level value is an array yields one record
per element; a single non-array value is wrapped into a one-record sequence
(row count 1); `columns` come from the first non-null object-typed element;
and the branch fails when the parse throws, when the record count exceeds
the row limit, or when no element is a non-null object. -/
theorem json_ingestion_spec (tl : Nat) (p : Option JValue) :
    (∀ xs jp, p = some (JValue.arr xs) → parseJSONUpload tl p = .ok jp →
        jp.rows = xs) ∧
    (∀ v jp, p = some v → (∀ xs, v ≠ JValue.arr xs) →
        parseJSONUpload tl p = .ok jp → jp.rows = [v] ∧ jp.rows.length = 1) ∧
    (∀ jp, parseJSONUpload tl p = .ok jp →
        ∃ first, jp.rows.find? jsTruthyObject = some first ∧
          jsTruthyObject first = true ∧ jp.columns = jsKeys first) ∧
    (p = none → tl ≤ JSON_TEXT_LIMIT →
        parseJSONUpload tl p = .error .invalidJson) ∧
    (∀ v, p = some v → tl ≤ JSON_TEXT_LIMIT →
        ROW_LIMIT < (toRecords v).length →
        parseJSONUpload tl p = .error .jsonTooManyRecords) ∧
    (∀ v, p = some v → tl ≤ JSON_TEXT_LIMIT →
        (toRecords v).length ≤ ROW_LIMIT →
        (toRecords v).find? jsTruthyObject = none →
        parseJSONUpload tl p = .error .noValidObjects) := by
  refine ⟨?_, ?_, ?_, ?_, ?_, ?_⟩
  · intro xs jp hp h
    obtain ⟨-, v, hv, hrows, -, -⟩ := parseJSONUpload_ok_inv h
    rw [hp] at hv
    cases hv
    exact hrows
  · intro v jp hp hv h
    obtain ⟨-, v', hv', hrows, -, -⟩ := parseJSONUpload_ok_inv h
    rw [hp] at hv'
    cases hv'
    rw [hrows, toRecords_non_array hv]
    exact ⟨rfl, rfl⟩
  · intro jp h
    obtain ⟨-, v, -, -, -, first, hfind, hcols⟩ := parseJSONUpload_ok_inv h
    refine ⟨first, hfind, ?_, hcols⟩
    exact List.find?_some hfind
  · intro hp htl
    rw [hp, parseJSONUpload.eq_def, if_neg (by omega)]
  · intro v hp htl hlen
    rw [hp, parseJSONUpload.eq_def, if_neg (by omega)]
    dsimp only
    rw [if_pos hlen]
  · intro v hp htl hlen hfind
    rw [hp, parseJSONUpload.eq_def, if_neg (by omega)]
    dsimp only
    rw [if_neg (by omega), hfind]

/-- Witness for C6: a failing parse is rejected, and a one-object upload
yields one record with that object's keys. -/
theorem json_ingestion_spec_witness :
    parseJSONUpload 5 none = Except.error UploadError.invalidJson ∧
    parseJSONUpload 5 (some (JValue.obj [("a", JValue.num 1)])) =
      Except.ok ⟨["a"], [JValue.obj [("a", JValue.num 1)]]⟩ ∧
    (⟨["a"], [JValue.obj [("a", JValue.num 1)]]⟩ : JsonParsed).rows.length = 1 := by
  refine ⟨(json_ingestion_spec 5 none).2.2.2.1 rfl (by norm_num [JSON_TEXT_LIMIT]),
    by rfl, ?_⟩
  exact ((json_ingestion_spec 5 (some (JValue.obj [("a", JValue.num 1)]))).2.1
    (JValue.obj [("a", JValue.num 1)]) ⟨["a"], [JValue.obj [("a", JValue.num 1)]]⟩
    rfl (fun xs h => JValue.noConfusion h) (by rfl)).2

/-- C9: a database write failure after a successful parse does not fail the
response: the same success body and metadata are returned, and the failure
is visible only as the logged warning flag, unlike a parse failure, which
yields an error response. -/
theorem db_failure_nonfatal (f : UploadFile) (body : SuccessBody)
    (saved : SavedMetadata) (w : Bool)
    (h : uploadPost f true = .ok body saved w) :
    w = false ∧ uploadPost f false = .ok body saved true := by
  obtain ⟨hext, hsize, po, hp, hbody, hsaved, hw⟩ := uploadPost_ok_inv h
  subst hbody hsaved
  refine ⟨by simpa using hw, ?_⟩
  simp only [uploadPost, if_pos hext, if_neg (by omega : ¬ f.size > MAX_SIZE), hp]
  rfl

/-- Witness for C9 at the two-row CSV upload `smallCsvFile`. -/
theorem db_failure_nonfatal_witness :
    uploadPost smallCsvFile false = .ok smallCsvBody smallCsvSaved true :=
  (db_failure_nonfatal smallCsvFile smallCsvBody smallCsvSaved false (by rfl)).2

/-- C10: a JSON upload whose decoded text exceeds the 10 MiB text limit
fails even when its byte size is under the 50 MiB byte limit. -/
theorem json_text_limit_stricter (f : UploadFile) (dbOk : Bool)
    (hjson : lowerString (extname f.originalname) = ".json")
    (hsize : f.size ≤ MAX_SIZE)
    (htext : JSON_TEXT_LIMIT < f.jsonTextLen) :
    uploadPost f dbOk = .err 500 genericErrorField
      UploadError.jsonTextTooLarge.message := by
  refine uploadPost_err_of_process (Or.inr hjson) (by omega) ?_
  rw [hjson]
  exact processUpload_json_textlimit htext

/-- Witness for C10: a 20 MiB JSON upload whose text has 10 MiB + 1
characters is rejected. -/
theorem json_text_limit_stricter_witness :
    bigTextJsonFile.size ≤ MAX_SIZE ∧
    JSON_TEXT_LIMIT < bigTextJsonFile.jsonTextLen ∧
    uploadPost bigTextJsonFile true = .err 500 genericErrorField
      "JSON file too large to process" := by
  refine ⟨by norm_num [bigTextJsonFile, MAX_SIZE], by norm_num [bigTextJsonFile, JSON_TEXT_LIMIT], ?_⟩
  exact json_text_limit_stricter bigTextJsonFile true (by rfl)
    (by norm_num [bigTextJsonFile, MAX_SIZE])
    (by norm_num [bigTextJsonFile, JSON_TEXT_LIMIT])

/-- Counterexample to C7: a JSON upload of `[]` parses to zero records, yet
ingestion fails with the 'No valid data objects found in JSON file' error
(the rejection C6 and the spec classify as a ParseError), not with either
EmptyDatasetError throw site ('No data found in file or file is empty' /
'No columns detected in file'). -/
theorem json_empty_array_error_kind_counterexample :
    toRecords (JValue.arr []) = [] ∧
    uploadPost emptyJsonArrayFile true =
      .err 500 genericErrorField UploadError.noValidObjects.message ∧
    UploadError.noValidObjects ≠ UploadError.emptyDataset ∧
    UploadError.noValidObjects ≠ UploadError.noColumns ∧
    UploadError.noValidObjects.message ≠ UploadError.emptyDataset.message ∧
    UploadError.noValidObjects.message ≠ UploadError.noColumns.message := by
  exact ⟨rfl, by rfl, by decide, by decide, by decide, by decide⟩

/-- C7 (amended): a Dataset with no records or no columns is never returned;
when the parse stage yields empty records or empty columns the shared
post-parse checks fail with the EmptyDatasetError sites, but a JSON upload
with zero records is rejected earlier by the 'no valid data objects'
ParseError. -/
theorem empty_dataset_never_returned :
    (∀ f dbOk body saved w, uploadPost f dbOk = RouteResult.ok body saved w →
        body.data ≠ [] ∧ body.headers ≠ []) ∧
    (∀ ext f po, dispatchParse ext f = .ok po →
        po.parsedData = [] ∨ po.columns = [] →
        processUpload ext f = .error .emptyDataset ∨
        processUpload ext f = .error .noColumns) ∧
    (∀ f, f.jsonParse = some (JValue.arr []) →
        f.jsonTextLen ≤ JSON_TEXT_LIMIT →
        processUpload ".json" f = .error .noValidObjects) := by
  refine ⟨?_, ?_, ?_⟩
  · intro f dbOk body saved w h
    obtain ⟨-, -, po, hp, hbody, -, -⟩ := uploadPost_ok_inv h
    obtain ⟨-, h1, h2⟩ := processUpload_ok_inv hp
    subst hbody
    refine ⟨fun hc => h1 ?_, fun hc => h2 ?_⟩
    · dsimp only at hc
      rw [hc]
      rfl
    · dsimp only at hc
      rw [hc]
      rfl
  · intro ext f po hd hor
    simp only [processUpload, hd]
    by_cases h1 : po.parsedData.length = 0
    · rw [if_pos h1]
      exact Or.inl rfl
    · rw [if_neg h1]
      have h2 : po.columns.length = 0 := by
        cases hor with
        | inl hc => exact absurd (by rw [hc]; rfl) h1
        | inr hc => rw [hc]; rfl
      rw [if_pos h2]
      exact Or.inr rfl
  · intro f hj htl
    rw [processUpload, dispatchParse, if_neg (by decide),
      parseJSONUpload.eq_def, hj, if_neg (by omega)]
    rfl

/-- Witness for the amended C7 at the empty CSV upload. -/
theorem empty_dataset_never_returned_witness :
    processUpload ".csv" emptyCsvFile = .error UploadError.emptyDataset ∨
    processUpload ".csv" emptyCsvFile = .error UploadError.noColumns :=
  (empty_dataset_never_returned).2.1 ".csv" emptyCsvFile
    { columns := [], rows := 0, preview := [], parsedData := [] }
    (by rfl) (Or.inl rfl)

/-- Counterexample to C8: empty files and row-limit violations do not fail
with their own error kinds — both reach the caller under the one generic
catch-all top-level error 'File processing failed', distinguished only in
the details string. -/
theorem generic_error_kind_counterexample :
    uploadPost emptyCsvFile true =
      .err 500 "File processing failed" "No data found in file or file is empty" ∧
    uploadPost hugeCsvFile true =
      .err 500 "File processing failed" "File too large. Maximum 100,000 rows allowed." ∧
    genericErrorField = "File processing failed" := by
  refine ⟨by rfl, ?_, rfl⟩
  have hrows : ROW_LIMIT < hugeCsvFile.csvParse.length := by simp [hugeCsvFile]
  exact @uploadPost_err_of_process hugeCsvFile true .rowLimitExceeded
    (Or.inl (by rfl)) (by norm_num [hugeCsvFile, MAX_SIZE])
    (processUpload_csv_rowlimit hrows)

/-- C8 (amended): unsupported-extension and byte-limit failures are rejected
before parsing with their own specific top-level error kinds; empty-file and
row-limit failures surface through the generic 'File processing failed'
error, distinguished from each other only by their details messages. -/
theorem error_kind_mapping :
    (∀ f dbOk, ¬ (lowerString (extname f.originalname) = ".csv" ∨
          lowerString (extname f.originalname) = ".json") →
        uploadPost f dbOk =
          .err 400 "Unsupported file format" "Only CSV and JSON files are supported") ∧
    (∀ f dbOk, (lowerString (extname f.originalname) = ".csv" ∨
          lowerString (extname f.originalname) = ".json") →
        MAX_SIZE < f.size →
        uploadPost f dbOk =
          .err 400 "File too large" "File size must be less than 50MB") ∧
    (∀ f dbOk, lowerString (extname f.originalname) = ".csv" →
        f.size ≤ MAX_SIZE → f.csvParse = [] →
        uploadPost f dbOk =
          .err 500 genericErrorField UploadError.emptyDataset.message) ∧
    (∀ f dbOk, lowerString (extname f.originalname) = ".csv" →
        f.size ≤ MAX_SIZE → ROW_LIMIT < f.csvParse.length →
        uploadPost f dbOk =
          .err 500 genericErrorField UploadError.rowLimitExceeded.message) ∧
    UploadError.emptyDataset.message ≠ UploadError.rowLimitExceeded.message ∧
    "Unsupported file format" ≠ genericErrorField ∧
    "File too large" ≠ genericErrorField := by
  refine ⟨?_, ?_, ?_, ?_, by decide, by decide, by decide⟩
  · intro f dbOk hbad
    simp only [uploadPost, if_neg hbad]
  · intro f dbOk hext hsz
    simp only [uploadPost, if_pos hext, if_pos hsz]
  · intro f dbOk hcsv hsz hemp
    refine uploadPost_err_of_process (Or.inl hcsv) (by omega) ?_
    rw [hcsv]
    exact processUpload_csv_empty hemp
  · intro f dbOk hcsv hsz hrows
    refine uploadPost_err_of_process (Or.inl hcsv) (by omega) ?_
    rw [hcsv]
    exact processUpload_csv_rowlimit hrows

/-- Witness for the amended C8 at a `.txt` upload. -/
theorem error_kind_mapping_witness :
    uploadPost textFile true =
      .err 400 "Unsupported file format" "Only CSV and JSON files are supported" :=
  (error_kind_mapping).1 textFile true (by decide)
